import Mathlib

/-!
Shallow embedding of the quantized MobileNetV2 training pipeline
(repository `Quantization-Implementations`): the model builder in
`models/mobilenetv2.py`, the architecture-name helper in `models/utils.py`,
and the hook registration / run-mode dispatch in `main.py`.

Python integers are embedded as `Int`, Python floats that take exact
decimal values (width multipliers, standard deviations) as `ℚ`, and Python
strings as `String`.  Layers and tensors are symbolic: a quantized layer is
a record of the constructor arguments the code passes, and a forward pass
builds a free tensor expression, so that "the output is `x + conv(x)`" is a
syntactic fact.
-/

/-- Python `int(c * w)` for an integer `c` and a float `w`, on the exact
rational embedding of the float: the product is `(c * w.num) / w.den` and
`int()` truncates toward zero, which is exactly `Int.tdiv`
(T-division).  The width multipliers used by this repository are exactly
representable, so the float product is exact. -/
def pyIntTimes (c : Int) (w : ℚ) : Int :=
  Int.tdiv (c * w.num) w.den

/-- Python `int(s)` on a string of decimal digits; the only use in this
repository is `int(cfg.dataset[5:])` where the slice is `"10"` or `"100"`,
so negative signs and error cases do not arise. -/
def pyStrInt (s : String) : Int :=
  Int.ofNat (s.data.foldl (fun acc c => acc * 10 + (c.toNat - 48)) 0)

/-- The module-level quantization configuration dict `qcfg` set by
`set_model` (keys `bitw`, `bita`, `first_conv_bitw`, `last_fc_bitw`,
`symmetric`). -/
structure QCfg where
  bitw : Int
  bita : Int
  first_conv_bitw : Int
  last_fc_bitw : Int
  symmetric : Bool
deriving DecidableEq, Repr

/-- Leaf layers (modules) that the builders in `models/mobilenetv2.py`
instantiate, with the constructor arguments the code passes.  The wrapped
quantized primitives `qnn.QuantConv2d` / `QuantReLU6` / `QuantIdentity` /
`QuantLinear` are external collaborators, so a layer is just its argument
record.  `QuantConv2d` is always created with `bias=False` by `conv2d`;
`QuantLinear` (PyTorch default) has a bias. -/
inductive Layer where
  | quantConv2d (inplanes out_planes kernel_size stride padding groups : Int)
      (bias : Bool) (nbits : Int) (symmetric : Bool)
  | batchNorm2d (planes : Int)
  | quantReLU6 (nbits : Int)
  | quantIdentity (nbits : Int) (symmetric : Bool)
  | quantLinear (in_features out_features : Int) (nbits : Int) (symmetric : Bool) (bias : Bool)
deriving DecidableEq, Repr

/-- `conv2d` of `models/mobilenetv2.py`: a `QuantConv2d` with `bias=False`
and `nbits = qcfg['bitw'] if bitw == None else bitw`. -/
def conv2d (qc : QCfg) (inplanes out_planes kernel_size stride padding groups : Int)
    (bitw : Option Int) : Layer :=
  .quantConv2d inplanes out_planes kernel_size stride padding groups false
    (bitw.getD qc.bitw) qc.symmetric

/-- `relu6` of `models/mobilenetv2.py`: `QuantReLU6` with `nbits = qcfg['bita']`. -/
def relu6 (qc : QCfg) : Layer := .quantReLU6 qc.bita

/-- `identity` of `models/mobilenetv2.py`: `QuantIdentity` with
`nbits = qcfg['bitw'] if bitw == None else bitw`. -/
def identity (qc : QCfg) (bitw : Option Int) : Layer :=
  .quantIdentity (bitw.getD qc.bitw) qc.symmetric

/-- The `ConvBNReLU` module: `quant_act` is present exactly when the
constructor ran with `quant_input=False` (the Python code only sets the
attribute in that case and `forward` tests it with `hasattr`). -/
structure ConvBNReLU where
  quant_act : Option Layer
  conv : Layer
  bn : Layer
  act : Layer
deriving DecidableEq, Repr

/-- `ConvBNReLU.__init__(in_planes, out_planes, kernel_size, stride, groups,
bitw, quant_input)` with `padding = (kernel_size - 1) // 2 if kernel_size > 1
else 0`. -/
def mkConvBNReLU (qc : QCfg) (in_planes out_planes kernel_size stride groups : Int)
    (bitw : Option Int) (quant_input : Bool) : ConvBNReLU :=
  let padding : Int := if kernel_size > 1 then (kernel_size - 1) / 2 else 0
  { quant_act := if quant_input then none else some (identity qc bitw)
    conv := conv2d qc in_planes out_planes kernel_size stride padding groups bitw
    bn := .batchNorm2d out_planes
    act := relu6 qc }

/-- The leaf submodules of a `ConvBNReLU`, in definition order. -/
def ConvBNReLU.layers (c : ConvBNReLU) : List Layer :=
  (match c.quant_act with | some l => [l] | none => []) ++ [c.conv, c.bn, c.act]

/-- Free tensor expressions: the forward passes are embedded as syntax
builders, so that adding a residual is a distinguishable constructor. -/
inductive TExpr where
  | input
  | app (l : Layer) (x : TExpr)
  | add (a b : TExpr)
deriving DecidableEq, Repr

/-- Running an `nn.Sequential` of leaf layers over a tensor expression. -/
def applySeq (ls : List Layer) (x : TExpr) : TExpr :=
  ls.foldl (fun acc l => .app l acc) x

/-- `ConvBNReLU.forward`: quantizes the input first exactly when the
`quant_act` attribute exists, then conv, bn, relu6. -/
def ConvBNReLU.forward (c : ConvBNReLU) (x : TExpr) : TExpr :=
  let x' := match c.quant_act with | some l => TExpr.app l x | none => x
  .app c.act (.app c.bn (.app c.conv x'))

/-- The `InvertedResidual` module: stride, the cached
`use_res_connect = (stride == 1 and inp == oup)` flag, and the flattened
leaf layers of its `self.conv` Sequential. -/
structure InvertedResidual where
  stride : Int
  use_res_connect : Bool
  conv : List Layer
deriving DecidableEq, Repr

/-- `InvertedResidual.__init__(inp, oup, stride, expand_ratio, quant_input)`.
`hidden_dim = int(round(inp * expand_ratio))`; every expansion ratio in this
repository is the integer 1 or 6, so the rounding is exact and the product is
kept as integer multiplication. -/
def mkInvertedResidual (qc : QCfg) (inp oup stride expand_ratio : Int)
    (quant_input : Bool) : InvertedResidual :=
  let hidden_dim := inp * expand_ratio
  { stride := stride
    use_res_connect := stride == 1 && inp == oup
    conv :=
      (if expand_ratio ≠ 1 then
        (mkConvBNReLU qc inp hidden_dim 1 1 1 none quant_input).layers
      else []) ++
      (mkConvBNReLU qc hidden_dim hidden_dim 3 stride hidden_dim none true).layers ++
      [conv2d qc hidden_dim oup 1 1 0 1 none, .batchNorm2d oup] }

/-- `InvertedResidual.forward`: adds the skip connection exactly when
`use_res_connect` holds. -/
def InvertedResidual.forward (b : InvertedResidual) (x : TExpr) : TExpr :=
  if b.use_res_connect then .add x (applySeq b.conv x) else applySeq b.conv x

/-- The inner loop `for i in range(n)` of the builders: the first block of a
stage uses the stage stride `s`, later repetitions stride 1, and the input
channel count is threaded forward (`input_channel = output_channel`).
Returns the blocks and the final `input_channel`. -/
def buildStage (qc : QCfg) (t oc : Int) (q : Bool) :
    Int → Nat → Int → List InvertedResidual × Int
  | _, 0, ic => ([], ic)
  | s, Nat.succ k, ic =>
    let b := mkInvertedResidual qc ic oc s t q
    let rest := buildStage qc t oc q 1 k oc
    (b :: rest.1, rest.2)

/-- The outer loop over the `inverted_residual_setting` rows
`(t, c, n, s, q)` with `output_channel = int(c * width_mult)`. -/
def buildSetting (qc : QCfg) (width_mult : ℚ) :
    List (Int × Int × Nat × Int × Bool) → Int → List InvertedResidual × Int
  | [], ic => ([], ic)
  | (t, c, n, s, q) :: rest, ic =>
    let oc := pyIntTimes c width_mult
    let stage := buildStage qc t oc q s n ic
    let tail := buildSetting qc width_mult rest stage.2
    (stage.1 ++ tail.1, tail.2)

/-- A constructed network: the flattened leaf modules of `self.features`
(in order), the inverted-residual blocks themselves, the leaf modules of
`self.classifier`, and `self.last_channel`.  Flattening to leaf modules is
what `self.modules()` yields up to container nodes, and the
weight-initialization loop only matches leaf classes. -/
structure MNet where
  features : List Layer
  blocks : List InvertedResidual
  classifier : List Layer
  last_channel : Int
deriving DecidableEq, Repr

/-- The leaf modules of the whole network in `self.modules()` order. -/
def MNet.modules (m : MNet) : List Layer := m.features ++ m.classifier

/-- `inverted_residual_setting` of `MobileNetV2` (ImageNet): rows
`(t, c, n, s, q)`. -/
def imagenetSetting : List (Int × Int × Nat × Int × Bool) :=
  [(1, 16, 1, 1, true),
   (6, 24, 2, 2, false),
   (6, 32, 3, 2, false),
   (6, 64, 4, 2, false),
   (6, 96, 3, 1, false),
   (6, 160, 3, 2, false),
   (6, 320, 1, 1, false)]

/-- `inverted_residual_setting` of `MobileNetV2_CIFAR`: rows `(t, c, n, s)`;
`quant_input` is left at its default `True` for every block. -/
def cifarSetting : List (Int × Int × Nat × Int) :=
  [(1, 16, 1, 1),
   (6, 24, 2, 1),
   (6, 32, 3, 1),
   (6, 64, 4, 2),
   (6, 96, 3, 1),
   (6, 160, 3, 2),
   (6, 320, 1, 1)]

/-- `MobileNetV2.__init__(num_classes, width_mult)` (the ImageNet variant):
first `ConvBNReLU(3, input_channel, stride=2, bitw=qcfg['first_conv_bitw'])`,
the inverted-residual stages, a final
`ConvBNReLU(input_channel, last_channel, kernel_size=1, quant_input=False)`,
and classifier `QuantLinear(last_channel, num_classes,
nbits=qcfg['last_fc_bitw'], symmetric=qcfg['symmetric'])`. -/
def MobileNetV2 (qc : QCfg) (num_classes : Int) (width_mult : ℚ) : MNet :=
  let input_channel := pyIntTimes 32 width_mult
  let last_channel := pyIntTimes 1280 (max 1 width_mult)
  let first := mkConvBNReLU qc 3 input_channel 3 2 1 (some qc.first_conv_bitw) true
  let built := buildSetting qc width_mult imagenetSetting input_channel
  let lastConv := mkConvBNReLU qc built.2 last_channel 1 1 1 none false
  { features := first.layers ++ (built.1.map (fun b => b.conv)).flatten ++ lastConv.layers
    blocks := built.1
    classifier := [.quantLinear last_channel num_classes qc.last_fc_bitw qc.symmetric true]
    last_channel := last_channel }

/-- `MobileNetV2_CIFAR.__init__(num_classes, width_mult)`: same shape but the
first conv has `stride=1`, the stage table keeps resolution higher, and the
final `ConvBNReLU` leaves `quant_input` at its default `True`. -/
def MobileNetV2_CIFAR (qc : QCfg) (num_classes : Int) (width_mult : ℚ) : MNet :=
  let input_channel := pyIntTimes 32 width_mult
  let last_channel := pyIntTimes 1280 (max 1 width_mult)
  let first := mkConvBNReLU qc 3 input_channel 3 1 1 (some qc.first_conv_bitw) true
  let built := buildSetting qc width_mult
    (cifarSetting.map (fun r => (r.1, r.2.1, r.2.2.1, r.2.2.2, true))) input_channel
  let lastConv := mkConvBNReLU qc built.2 last_channel 1 1 1 none true
  { features := first.layers ++ (built.1.map (fun b => b.conv)).flatten ++ lastConv.layers
    blocks := built.1
    classifier := [.quantLinear last_channel num_classes qc.last_fc_bitw qc.symmetric true]
    last_channel := last_channel }

/-- The configuration record: the argparse options that `main.py`,
`set_model` and `set_arch_name` read. -/
structure Cfg where
  dataset : String
  arch : String
  layers : Int
  width_mult : ℚ
  bitw : Int
  bita : Int
  first_conv_bitw : Int
  last_fc_bitw : Int
  symmetric : Bool
  run_type : String
  step_location : String
  load : Option String
  resume : Bool
deriving DecidableEq, Repr

/-- The `qcfg` dict that `set_model` builds from the configuration. -/
def qcfgOf (cfg : Cfg) : QCfg :=
  { bitw := cfg.bitw
    bita := cfg.bita
    first_conv_bitw := cfg.first_conv_bitw
    last_fc_bitw := cfg.last_fc_bitw
    symmetric := cfg.symmetric }

/-- The module-level globals of `models/mobilenetv2.py` that `set_model`
assigns: `qnn` (the quantizer's layer factory, identified here by name) and
`qcfg`.  Both start out unset when the module is first imported. -/
structure ModuleGlobals where
  qnn : Option String
  qcfg : Option QCfg
deriving DecidableEq, Repr

/-- `set_model(cfg, qnn)`: first overwrites the module globals `qnn` and
`qcfg` from the configuration, then dispatches on `cfg.dataset`; an
unrecognized dataset raises
`Exception('Undefined dataset for MobileNetV2 architecture.')`.
State passing makes the global writes explicit: the result is the returned
value (or the exception) paired with the module globals after the call. -/
def set_model (cfg : Cfg) (qnn : String) (g : ModuleGlobals) :
    Except String (MNet × Int) × ModuleGlobals :=
  let _ := g
  let g' : ModuleGlobals := { qnn := some qnn, qcfg := some (qcfgOf cfg) }
  if cfg.dataset ∈ ["cifar10", "cifar100"] then
    let num_classes : Int := pyStrInt ⟨cfg.dataset.data.drop 5⟩
    (.ok (MobileNetV2_CIFAR (qcfgOf cfg) num_classes cfg.width_mult, 32), g')
  else if cfg.dataset ∈ ["imagenet"] then
    (.ok (MobileNetV2 (qcfgOf cfg) 1000 cfg.width_mult, 224), g')
  else
    (.error "Undefined dataset for MobileNetV2 architecture.", g')

/-- The output dimensionality of the final classifier layer, when it is a
linear layer. -/
def finalOutDim (m : MNet) : Option Int :=
  match m.classifier.getLast? with
  | some (.quantLinear _ out_features _ _ _) => some out_features
  | _ => none

/-- Digits of the terminating decimal expansion of the fraction `n / d`
with `0 ≤ n < d`, by repeated multiplication by 10, with fuel.  Returns
`""` once the remainder is exhausted. -/
def fracDigits : Nat → Nat → Nat → String
  | 0, _, _ => ""
  | Nat.succ fuel, n, d =>
    if n = 0 then ""
    else toString (n * 10 / d) ++ fracDigits fuel (n * 10 % d) d

/-- How Python renders a nonnegative float with a short terminating decimal
expansion inside an f-string (`repr`): integer part, a dot, then the
fractional digits, with a single `0` when the value is integral
(`1.0 ↦ "1.0"`, `0.5 ↦ "0.5"`).  The width multipliers used by this
repository are all of this form.  The fractional part of `q` is
`(q.num - floor q * den) / den`. -/
def pyFloatRepr (q : ℚ) : String :=
  let ip := q.floor
  let fracNum := q.num - ip * q.den
  toString ip ++ "." ++ (if fracNum = 0 then "0" else fracDigits 30 fracNum.toNat q.den)

/-- `set_arch_name(cfg)` of `models/utils.py`: starts from a copy of
`cfg.arch`; appends `-{layers}` for `resnet`/`preactresnet`; appends
`x{width_mult}` for `mobilenetv2` only when `width_mult != 1.0`. -/
def set_arch_name (cfg : Cfg) : String :=
  let arch_name := cfg.arch
  if cfg.arch ∈ ["resnet", "preactresnet"] then
    arch_name ++ "-" ++ toString cfg.layers
  else if cfg.arch ∈ ["mobilenetv2"] then
    if cfg.width_mult ≠ 1 then arch_name ++ "x" ++ pyFloatRepr cfg.width_mult
    else arch_name
  else
    arch_name

/-- An in-place initialization applied to one parameter tensor.  A call
`tensor.normal_(mu, sigma)` (whose second argument is the standard
deviation) is recorded as `normalVar mu (sigma^2)`, i.e. by the variance of
the sampled distribution; this keeps the record in `ℚ` where the source
passes `math.sqrt(2. / n)`, since `(sqrt (2 / n))^2 = 2 / n`. -/
inductive InitAction where
  | normalVar (mean variance : ℚ)
  | ones
  | zeros
deriving DecidableEq, Repr

/-- The weight-initialization loop shared by `MobileNetV2.__init__` and
`MobileNetV2_CIFAR.__init__`: for each leaf module it yields the list of
(parameter name, action) pairs the loop applies.  `QuantConv2d`:
`n = kernel_size[0] * kernel_size[1] * out_channels`, weight sampled with
standard deviation `sqrt(2 / n)`, bias zeroed only when present.
`BatchNorm2d`: weight ones, bias zeros.  `QuantLinear`: weight sampled with
standard deviation `0.01`, bias zeroed. -/
def initRule (m : Layer) : List (String × InitAction) :=
  match m with
  | .quantConv2d _ out_planes kernel_size _ _ _ bias _ _ =>
    [("weight", .normalVar 0 (2 / ((kernel_size : ℚ) * kernel_size * out_planes)))] ++
      (if bias then [("bias", .zeros)] else [])
  | .batchNorm2d _ => [("weight", .ones), ("bias", .zeros)]
  | .quantLinear _ _ _ _ _ =>
    [("weight", .normalVar 0 ((1 / 100) ^ 2)), ("bias", .zeros)]
  | _ => []

/-- The hook registry of the external Trainer: a mapping from lifecycle
location to the ordered list of registered callables, identified by name. -/
abbrev Registry : Type := String → List String

/-- A fresh Trainer has no hooks registered anywhere. -/
def emptyRegistry : Registry := fun _ => []

/-- `trainer.register_hooks(loc=..., func=[...])`: appends the callables at
that location, preserving registration order. -/
def register_hooks (r : Registry) (loc : String) (funcs : List String) : Registry :=
  fun l => if l = loc then r l ++ funcs else r l

/-- The hook registrations `main.py` performs in the `train` branch, in
program order: optional `load_init`/`load_resume` at `before_train`; then
`step_lr_epoch` at `after_epoch` when `cfg.step_location == 'epoch'`,
otherwise `step_lr_batch` at `after_batch`; then `save_train` and
`summarize_reports` at `after_epoch`. -/
def trainRegistry (cfg : Cfg) : Registry :=
  let r := emptyRegistry
  let r :=
    match cfg.load with
    | some _ =>
      if ¬cfg.resume then register_hooks r "before_train" ["load_init"]
      else register_hooks r "before_train" ["load_resume"]
    | none => r
  let r :=
    if cfg.step_location = "epoch" then
      register_hooks r "after_epoch" ["step_lr_epoch"]
    else
      register_hooks r "after_batch" ["step_lr_batch"]
  register_hooks r "after_epoch" ["save_train", "summarize_reports"]

/-- The hook registrations `main.py` performs in the `analyze` branch, in
program order: `load_valid` at `before_epoch`; then the `FeatureExtractor`
triple at `before_epoch` / `after_batch` / `after_epoch`. -/
def analyzeRegistry : Registry :=
  let r := register_hooks emptyRegistry "before_epoch" ["load_valid"]
  let r := register_hooks r "before_epoch" ["extractor.initialize"]
  let r := register_hooks r "after_batch" ["extractor.check_feature"]
  register_hooks r "after_epoch" ["extractor.save_feature"]

/-- Modelled from the spec: the Trainer class lives in the external
`classifier.train` module, which is not among the repository sources; per
the spec's Trainer state machine, one epoch runs the `before_epoch` hooks,
then the batch loop where the `after_batch` hooks run once after each of
the `nBatches` batches, then the `after_epoch` hooks, each hook list in
registration order.  The result is the flat trace of hook invocations in
one epoch. -/
def runEpoch (r : Registry) (nBatches : Nat) : List String :=
  r "before_epoch" ++ (List.replicate nBatches (r "after_batch")).flatten ++ r "after_epoch"

/-- Modelled from the spec: the Trainer's `train()` entry point (external
`classifier.train`, not among the repository sources) runs the
`before_train` hooks once and then `nEpochs` epochs, each as in
`runEpoch`. -/
def runTrain (r : Registry) (nEpochs nBatches : Nat) : List String :=
  r "before_train" ++ (List.replicate nEpochs (runEpoch r nBatches)).flatten

/-- Observable events of `main()`: a `register_hooks` call, the
`quantizer.add_hooks(trainer)` call, and entering the run-mode entry point
(`trainer.train()` / `validate()` / `test()` / `analyze()`). -/
inductive Event where
  | reg (loc : String) (hook : String)
  | addHooks
  | entry (mode : String)
deriving DecidableEq, Repr

/-- The registration events for one `trainer.register_hooks` call. -/
def regEvents (loc : String) (funcs : List String) : List Event :=
  funcs.map (Event.reg loc)

/-- The run-mode dispatch of `main()` (lines 59-101 of `main.py`) as an
event trace.  `hasAddHooks` is `hasattr(quantizer, 'add_hooks')`; the body
calls `quantizer.add_hooks(trainer)` only inside the `train` branch, after
the train-mode hook registrations and right before `trainer.train()`.  An
unrecognized `run_type` falls through every branch and does nothing. -/
def mainTrace (cfg : Cfg) (hasAddHooks : Bool) : List Event :=
  if cfg.run_type = "train" then
    (match cfg.load with
     | some _ =>
       if ¬cfg.resume then regEvents "before_train" ["load_init"]
       else regEvents "before_train" ["load_resume"]
     | none => []) ++
    (if cfg.step_location = "epoch" then regEvents "after_epoch" ["step_lr_epoch"]
     else regEvents "after_batch" ["step_lr_batch"]) ++
    regEvents "after_epoch" ["save_train", "summarize_reports"] ++
    (if hasAddHooks then [Event.addHooks] else []) ++
    [Event.entry "train"]
  else if cfg.run_type = "validate" then
    regEvents "before_epoch" ["load_valid"] ++
    regEvents "after_epoch" ["summarize_reports"] ++
    [Event.entry "validate"]
  else if cfg.run_type = "test" then
    regEvents "before_epoch" ["load_valid"] ++
    regEvents "after_epoch" ["save_pred"] ++
    [Event.entry "test"]
  else if cfg.run_type = "analyze" then
    regEvents "before_epoch" ["load_valid"] ++
    regEvents "before_epoch" ["extractor.initialize"] ++
    regEvents "after_batch" ["extractor.check_feature"] ++
    regEvents "after_epoch" ["extractor.save_feature"] ++
    [Event.entry "analyze"]
  else
    []

/-- A sample quantization configuration (4-bit weights and activations,
8-bit first conv and last fc), used to instantiate the theorems below on
concrete inputs. -/
def qcSample : QCfg :=
  { bitw := 4, bita := 4, first_conv_bitw := 8, last_fc_bitw := 8, symmetric := true }

/-- A sample configuration record; the variants below override single
fields. -/
def cfgSample : Cfg where
  dataset := "cifar10"
  arch := "mobilenetv2"
  layers := 50
  width_mult := 1
  bitw := 4
  bita := 4
  first_conv_bitw := 8
  last_fc_bitw := 8
  symmetric := true
  run_type := "train"
  step_location := "epoch"
  load := none
  resume := false

/-- Module globals before any call to `set_model`. -/
def gInit : ModuleGlobals := { qnn := none, qcfg := none }

/-- A configuration whose dataset name is not recognized. -/
def cfgMnist : Cfg := { cfgSample with dataset := "mnist" }

/-- A validate-mode configuration. -/
def cfgValidate : Cfg := { cfgSample with run_type := "validate" }

/-- A train-mode configuration with per-batch scheduler stepping. -/
def cfgBatchStep : Cfg := { cfgSample with step_location := "batch" }

/-- A resnet configuration with 50 layers. -/
def cfgResnet50 : Cfg := { cfgSample with arch := "resnet" }

/-- A mobilenetv2 configuration with width multiplier 0.5. -/
def cfgHalfWidth : Cfg := { cfgSample with width_mult := mkRat 1 2 }

theorem applySeq_ne_add (ls : List Layer) (x : TExpr) (h : ls ≠ []) (a b : TExpr) :
    applySeq ls x ≠ .add a b := by
  induction ls generalizing x with
  | nil => exact absurd rfl h
  | cons l rest ih =>
    cases rest with
    | nil => simp [applySeq]
    | cons l2 r2 =>
      have hstep : applySeq (l :: l2 :: r2) x = applySeq (l2 :: r2) (.app l x) := rfl
      rw [hstep]
      exact ih (.app l x) (by simp)

theorem mkInvertedResidual_use_res (qc : QCfg) (inp oup stride t : Int) (q : Bool) :
    (mkInvertedResidual qc inp oup stride t q).use_res_connect = true
      ↔ (stride = 1 ∧ inp = oup) := by
  simp [mkInvertedResidual]

theorem mkInvertedResidual_conv_ne_nil (qc : QCfg) (inp oup stride t : Int) (q : Bool) :
    (mkInvertedResidual qc inp oup stride t q).conv ≠ [] := by
  simp [mkInvertedResidual, ConvBNReLU.layers]

/-- C1: an `InvertedResidual` block built with input channels `inp`, output
channels `oup` and stride in `{1, 2}` returns `x + conv(x)` exactly when
`stride == 1` and `inp == oup`, and otherwise returns `conv(x)`. -/
theorem invertedResidual_skip_iff (qc : QCfg) (inp oup stride t : Int) (q : Bool)
    (_hs : stride = 1 ∨ stride = 2) (x : TExpr) :
    ((mkInvertedResidual qc inp oup stride t q).forward x
        = TExpr.add x (applySeq (mkInvertedResidual qc inp oup stride t q).conv x)
      ↔ (stride = 1 ∧ inp = oup)) ∧
    (¬(stride = 1 ∧ inp = oup) →
      (mkInvertedResidual qc inp oup stride t q).forward x
        = applySeq (mkInvertedResidual qc inp oup stride t q).conv x) := by
  have hne := mkInvertedResidual_conv_ne_nil qc inp oup stride t q
  have hiff := mkInvertedResidual_use_res qc inp oup stride t q
  constructor
  · constructor
    · intro hfwd
      by_contra hcond
      have hfalse : (mkInvertedResidual qc inp oup stride t q).use_res_connect = false := by
        cases hb : (mkInvertedResidual qc inp oup stride t q).use_res_connect
        · rfl
        · exact absurd (hiff.mp hb) hcond
      rw [InvertedResidual.forward, hfalse] at hfwd
      simp at hfwd
      exact applySeq_ne_add _ x hne _ _ hfwd
    · intro hcond
      rw [InvertedResidual.forward, hiff.mpr hcond]
      simp
  · intro hcond
    have hfalse : (mkInvertedResidual qc inp oup stride t q).use_res_connect = false := by
      cases hb : (mkInvertedResidual qc inp oup stride t q).use_res_connect
      · rfl
      · exact absurd (hiff.mp hb) hcond
    rw [InvertedResidual.forward, hfalse]
    simp

/-- C1 witness: a 16 → 16 stride-1 block adds the skip connection; the
16 → 24 stride-2 first block of the second ImageNet stage does not. -/
theorem invertedResidual_skip_iff_witness :
    ((mkInvertedResidual qcSample 16 16 1 6 true).forward .input
      = TExpr.add .input (applySeq (mkInvertedResidual qcSample 16 16 1 6 true).conv .input)) ∧
    ((mkInvertedResidual qcSample 16 24 2 6 false).forward .input
      = applySeq (mkInvertedResidual qcSample 16 24 2 6 false).conv .input) :=
  ⟨(invertedResidual_skip_iff qcSample 16 16 1 6 true (Or.inl rfl) .input).1.mpr ⟨rfl, rfl⟩,
   (invertedResidual_skip_iff qcSample 16 24 2 6 false (Or.inr rfl) .input).2 (by decide)⟩

/-- C2: `set_model` on a dataset outside `{cifar10, cifar100, imagenet}`
raises the configuration exception and returns no model. -/
theorem set_model_unknown_dataset (cfg : Cfg) (qnn : String) (g : ModuleGlobals)
    (h : cfg.dataset ∉ ["cifar10", "cifar100", "imagenet"]) :
    (set_model cfg qnn g).1 = .error "Undefined dataset for MobileNetV2 architecture." := by
  simp only [List.mem_cons, List.mem_singleton, not_or] at h
  obtain ⟨h1, h2, h3⟩ := h
  simp [set_model, h1, h2, h3]

/-- C2 witness: the claim at the concrete dataset name `mnist`. -/
theorem set_model_unknown_dataset_witness :
    (set_model cfgMnist "lsq" gInit).1
      = .error "Undefined dataset for MobileNetV2 architecture." :=
  set_model_unknown_dataset cfgMnist "lsq" gInit (by decide)

/-- C9: when `set_model` fails on an unrecognized dataset, the module
globals `qnn` and `qcfg` have nevertheless been overwritten from the
configuration, so the failing call still changes the global quantization
state whenever it differed before the call. -/
theorem set_model_error_not_atomic (cfg : Cfg) (qnn : String) (g : ModuleGlobals)
    (h : cfg.dataset ∉ ["cifar10", "cifar100", "imagenet"]) :
    (∃ e, (set_model cfg qnn g).1 = .error e) ∧
    (set_model cfg qnn g).2 = { qnn := some qnn, qcfg := some (qcfgOf cfg) } ∧
    (g.qcfg ≠ some (qcfgOf cfg) → (set_model cfg qnn g).2.qcfg ≠ g.qcfg) := by
  simp only [List.mem_cons, List.mem_singleton, not_or] at h
  obtain ⟨h1, h2, h3⟩ := h
  have hg : (set_model cfg qnn g).2 = { qnn := some qnn, qcfg := some (qcfgOf cfg) } := by
    simp [set_model, h1, h2, h3]
  refine ⟨⟨"Undefined dataset for MobileNetV2 architecture.", ?_⟩, hg, ?_⟩
  · simp [set_model, h1, h2, h3]
  · intro hne
    rw [hg]
    show some (qcfgOf cfg) ≠ g.qcfg
    exact fun heq => hne heq.symm

/-- C9 witness: `set_model` on the `mnist` configuration with fresh module
globals fails yet overwrites `qnn` and `qcfg`. -/
theorem set_model_error_not_atomic_witness :
    (∃ e, (set_model cfgMnist "lsq" gInit).1 = .error e) ∧
    (set_model cfgMnist "lsq" gInit).2
      = { qnn := some "lsq", qcfg := some (qcfgOf cfgMnist) } ∧
    (gInit.qcfg ≠ some (qcfgOf cfgMnist) →
      (set_model cfgMnist "lsq" gInit).2.qcfg ≠ gInit.qcfg) :=
  set_model_error_not_atomic cfgMnist "lsq" gInit (by decide)

/-- C10: a `ConvBNReLU` carries the input-quantizing `quant_act` layer
exactly when it was constructed with `quant_input=False`; with the default
`quant_input=True` no such layer exists and `forward(x)` is
`relu6(bn(conv(x)))`, while with `quant_input=False` the quantizing
identity is applied to the input before the convolution. -/
theorem convBNReLU_quant_input_iff (qc : QCfg)
    (in_planes out_planes kernel_size stride groups : Int)
    (bitw : Option Int) (x : TExpr) :
    (∀ qi : Bool,
      (mkConvBNReLU qc in_planes out_planes kernel_size stride groups bitw qi).quant_act.isSome
        ↔ qi = false) ∧
    ((mkConvBNReLU qc in_planes out_planes kernel_size stride groups bitw true).quant_act
        = none) ∧
    ((mkConvBNReLU qc in_planes out_planes kernel_size stride groups bitw true).forward x
        = .app (relu6 qc) (.app (.batchNorm2d out_planes)
            (.app (conv2d qc in_planes out_planes kernel_size stride
              (if kernel_size > 1 then (kernel_size - 1) / 2 else 0) groups bitw) x))) ∧
    ((mkConvBNReLU qc in_planes out_planes kernel_size stride groups bitw false).quant_act
        = some (identity qc bitw)) ∧
    ((mkConvBNReLU qc in_planes out_planes kernel_size stride groups bitw false).forward x
        = .app (relu6 qc) (.app (.batchNorm2d out_planes)
            (.app (conv2d qc in_planes out_planes kernel_size stride
              (if kernel_size > 1 then (kernel_size - 1) / 2 else 0) groups bitw)
              (.app (identity qc bitw) x)))) := by
  refine ⟨fun qi => ?_, rfl, rfl, rfl, rfl⟩
  cases qi <;> simp [mkConvBNReLU]

/-- C7: `set_arch_name` is a pure function of the configuration:
`resnet` with 50 layers maps to `resnet-50`, `mobilenetv2` at width
multiplier 1.0 stays `mobilenetv2`, width 0.5 maps to `mobilenetv2x0.5`,
and in general the width suffix is appended exactly when the multiplier
differs from 1.0. -/
theorem set_arch_name_spec :
    set_arch_name cfgResnet50 = "resnet-50" ∧
    set_arch_name cfgSample = "mobilenetv2" ∧
    set_arch_name cfgHalfWidth = "mobilenetv2x0.5" ∧
    (∀ cfg : Cfg, cfg.arch = "mobilenetv2" →
      set_arch_name cfg =
        if cfg.width_mult = 1 then "mobilenetv2"
        else "mobilenetv2" ++ "x" ++ pyFloatRepr cfg.width_mult) := by
  refine ⟨by decide, by decide, by decide, fun cfg h => ?_⟩
  rw [set_arch_name, h]
  simp only [List.mem_cons, List.mem_singleton]
  norm_num
  split_ifs <;> simp_all

/-- C7 witness: the general width-suffix rule applied to the concrete
half-width configuration. -/
theorem set_arch_name_spec_witness :
    set_arch_name cfgHalfWidth =
      if cfgHalfWidth.width_mult = 1 then "mobilenetv2"
      else "mobilenetv2" ++ "x" ++ pyFloatRepr cfgHalfWidth.width_mult :=
  set_arch_name_spec.2.2.2 cfgHalfWidth rfl

theorem count_flatten_replicate (n : Nat) (l : List String) (a : String) :
    ((List.replicate n l).flatten.count a) = n * l.count a := by
  induction n with
  | zero => simp
  | succ k ih =>
    simp [List.replicate_succ, List.count_append, ih, Nat.succ_mul]
    ring

theorem flatten_replicate_singleton (n : Nat) (a : String) :
    (List.replicate n [a]).flatten = List.replicate n a := by
  induction n with
  | zero => simp
  | succ k ih => simp [List.replicate_succ, ih]

theorem trainRegistry_after_epoch (cfg : Cfg) :
    trainRegistry cfg "after_epoch" =
      (if cfg.step_location = "epoch" then ["step_lr_epoch"] else [])
        ++ ["save_train", "summarize_reports"] := by
  cases hl : cfg.load <;>
    cases hr : cfg.resume <;>
      by_cases hs : cfg.step_location = "epoch" <;>
        simp [trainRegistry, register_hooks, emptyRegistry, hl, hr, hs]

theorem trainRegistry_after_batch (cfg : Cfg) :
    trainRegistry cfg "after_batch" =
      if cfg.step_location = "epoch" then [] else ["step_lr_batch"] := by
  cases hl : cfg.load <;>
    cases hr : cfg.resume <;>
      by_cases hs : cfg.step_location = "epoch" <;>
        simp [trainRegistry, register_hooks, emptyRegistry, hl, hr, hs]

theorem trainRegistry_before_epoch (cfg : Cfg) :
    trainRegistry cfg "before_epoch" = [] := by
  cases hl : cfg.load <;>
    cases hr : cfg.resume <;>
      by_cases hs : cfg.step_location = "epoch" <;>
        simp [trainRegistry, register_hooks, emptyRegistry, hl, hr, hs]

theorem trainRegistry_before_train (cfg : Cfg) :
    trainRegistry cfg "before_train" = [] ∨
    trainRegistry cfg "before_train" = ["load_init"] ∨
    trainRegistry cfg "before_train" = ["load_resume"] := by
  cases hl : cfg.load <;>
    cases hr : cfg.resume <;>
      by_cases hs : cfg.step_location = "epoch" <;>
        simp [trainRegistry, register_hooks, emptyRegistry, hl, hr, hs]

/-- C3: in train mode exactly one scheduler-step hook is registered:
`step_lr_epoch` at `after_epoch` when `step_location = epoch` (running once
per epoch, `E` times over `E` epochs, and never after a batch), and
`step_lr_batch` at `after_batch` for any other `step_location` (running
once per batch, `E * N` times over `E` epochs of `N` batches, and never
after an epoch). -/
theorem scheduler_step_hook_exclusive (cfg : Cfg) (E N : Nat) :
    (cfg.step_location = "epoch" →
      (trainRegistry cfg "after_epoch").count "step_lr_epoch" = 1 ∧
      trainRegistry cfg "after_batch" = [] ∧
      (runEpoch (trainRegistry cfg) N).count "step_lr_epoch" = 1 ∧
      (runTrain (trainRegistry cfg) E N).count "step_lr_epoch" = E ∧
      (runTrain (trainRegistry cfg) E N).count "step_lr_batch" = 0) ∧
    (cfg.step_location ≠ "epoch" →
      (trainRegistry cfg "after_batch").count "step_lr_batch" = 1 ∧
      (trainRegistry cfg "after_epoch").count "step_lr_epoch" = 0 ∧
      (runEpoch (trainRegistry cfg) N).count "step_lr_batch" = N ∧
      (runTrain (trainRegistry cfg) E N).count "step_lr_batch" = E * N ∧
      (runTrain (trainRegistry cfg) E N).count "step_lr_epoch" = 0) := by
  have hae := trainRegistry_after_epoch cfg
  have hab := trainRegistry_after_batch cfg
  have hbe := trainRegistry_before_epoch cfg
  have hbt := trainRegistry_before_train cfg
  constructor
  · intro hs
    rw [hs] at hae hab
    simp only [if_pos rfl] at hae hab
    refine ⟨by simp [hae], hab, ?_, ?_, ?_⟩
    · simp [runEpoch, List.count_append, count_flatten_replicate, hae, hab, hbe]
    · rcases hbt with h | h | h <;>
        simp [runTrain, runEpoch, List.count_append, count_flatten_replicate,
          hae, hab, hbe, h]
    · rcases hbt with h | h | h <;>
        simp [runTrain, runEpoch, List.count_append, count_flatten_replicate,
          hae, hab, hbe, h]
  · intro hs
    rw [if_neg hs] at hae hab
    refine ⟨by simp [hab], by simp [hae], ?_, ?_, ?_⟩
    · simp [runEpoch, List.count_append, count_flatten_replicate, hae, hab, hbe]
    · rcases hbt with h | h | h <;>
        simp [runTrain, runEpoch, List.count_append, count_flatten_replicate,
          hae, hab, hbe, h, Nat.mul_comm]
    · rcases hbt with h | h | h <;>
        simp [runTrain, runEpoch, List.count_append, count_flatten_replicate,
          hae, hab, hbe, h, List.count_replicate]

/-- C3 witness: two epochs of three batches under each step granularity:
per-epoch stepping fires twice in total and per-batch stepping never; with
`step_location = batch` the batch hook fires six times and the epoch hook
never. -/
theorem scheduler_step_hook_exclusive_witness :
    ((trainRegistry cfgSample "after_epoch").count "step_lr_epoch" = 1 ∧
      trainRegistry cfgSample "after_batch" = [] ∧
      (runEpoch (trainRegistry cfgSample) 3).count "step_lr_epoch" = 1 ∧
      (runTrain (trainRegistry cfgSample) 2 3).count "step_lr_epoch" = 2 ∧
      (runTrain (trainRegistry cfgSample) 2 3).count "step_lr_batch" = 0) ∧
    ((trainRegistry cfgBatchStep "after_batch").count "step_lr_batch" = 1 ∧
      (trainRegistry cfgBatchStep "after_epoch").count "step_lr_epoch" = 0 ∧
      (runEpoch (trainRegistry cfgBatchStep) 3).count "step_lr_batch" = 3 ∧
      (runTrain (trainRegistry cfgBatchStep) 2 3).count "step_lr_batch" = 2 * 3 ∧
      (runTrain (trainRegistry cfgBatchStep) 2 3).count "step_lr_epoch" = 0) :=
  ⟨(scheduler_step_hook_exclusive cfgSample 2 3).1 rfl,
   (scheduler_step_hook_exclusive cfgBatchStep 2 3).2 (by decide)⟩

/-- C6: in analyze mode, `before_epoch` holds `load_valid` then the
capture-buffer initialization, `after_batch` holds the per-batch
accumulation, `after_epoch` holds the flush, and one epoch over `N` batches
invokes them in the order initialize → N accumulations → flush. -/
theorem analyze_hooks_order (N : Nat) :
    analyzeRegistry "before_epoch" = ["load_valid", "extractor.initialize"] ∧
    analyzeRegistry "after_batch" = ["extractor.check_feature"] ∧
    analyzeRegistry "after_epoch" = ["extractor.save_feature"] ∧
    runEpoch analyzeRegistry N =
      ["load_valid", "extractor.initialize"]
        ++ List.replicate N "extractor.check_feature"
        ++ ["extractor.save_feature"] := by
  refine ⟨rfl, rfl, rfl, ?_⟩
  rw [runEpoch]
  rw [show analyzeRegistry "after_batch" = ["extractor.check_feature"] from rfl,
    flatten_replicate_singleton]
  rfl

theorem addHooks_not_mem_regEvents (loc : String) (fs : List String) :
    Event.addHooks ∉ regEvents loc fs := by
  simp [regEvents]

/-- C4 counterexample: in validate mode, with a quantizer that does have an
`add_hooks` attribute, `main()` reaches the run-mode entry point without
ever calling `quantizer.add_hooks(trainer)`: the call sits inside the
`train` branch only, so the claim "for every run mode ... invoked exactly
once" fails at `run_type = validate`. -/
theorem add_hooks_skipped_in_validate :
    (mainTrace cfgValidate true).count Event.addHooks = 0 ∧
    Event.entry "validate" ∈ mainTrace cfgValidate true := by decide

/-- C4 (amended): only in train mode is `quantizer.add_hooks(trainer)`
invoked — exactly once, after the train-mode hook registrations and
immediately before `trainer.train()` — when the quantizer has the
attribute; in validate, test and analyze modes it is never invoked. -/
theorem add_hooks_called_once_in_train (cfg : Cfg) (hasAddHooks : Bool) :
    (cfg.run_type = "train" → hasAddHooks = true →
      ∃ pre, mainTrace cfg hasAddHooks = pre ++ [Event.addHooks, Event.entry "train"] ∧
        Event.addHooks ∉ pre) ∧
    (cfg.run_type ∈ ["validate", "test", "analyze"] →
      (mainTrace cfg hasAddHooks).count Event.addHooks = 0) := by
  constructor
  · intro h1 h2
    subst h2
    rw [mainTrace, if_pos h1]
    refine ⟨(match cfg.load with
        | some _ =>
          if ¬cfg.resume then regEvents "before_train" ["load_init"]
          else regEvents "before_train" ["load_resume"]
        | none => []) ++
        (if cfg.step_location = "epoch" then regEvents "after_epoch" ["step_lr_epoch"]
         else regEvents "after_batch" ["step_lr_batch"]) ++
        regEvents "after_epoch" ["save_train", "summarize_reports"], ?_, ?_⟩
    · simp [List.append_assoc]
    · cases hl : cfg.load <;>
        by_cases hr : cfg.resume <;>
          by_cases hs : cfg.step_location = "epoch" <;>
            simp [hl, hr, hs, regEvents]
  · intro h
    simp only [List.mem_cons, List.not_mem_nil, or_false] at h
    rcases h with h | h | h
    all_goals simp [mainTrace, h, regEvents]

/-- C4 witness for the amended claim: in a concrete train-mode run the
trace ends with the `add_hooks` call followed by `trainer.train()`, and in
a concrete validate-mode run `add_hooks` is never called. -/
theorem add_hooks_called_once_in_train_witness :
    (∃ pre, mainTrace cfgSample true = pre ++ [Event.addHooks, Event.entry "train"] ∧
      Event.addHooks ∉ pre) ∧
    (mainTrace cfgValidate true).count Event.addHooks = 0 :=
  ⟨(add_hooks_called_once_in_train cfgSample true).1 rfl rfl,
   (add_hooks_called_once_in_train cfgValidate true).2 (by decide)⟩

/-- C5: for each recognized dataset, `set_model` succeeds and returns the
dataset's image size (32 for the CIFAR datasets, 224 for ImageNet) and a
model whose final classifier layer has output dimensionality equal to the
dataset's class count (10, 100, 1000). -/
theorem set_model_recognized (cfg : Cfg) (qnn : String) (g : ModuleGlobals)
    (_hw : 0 < cfg.width_mult) :
    (cfg.dataset = "cifar10" →
      ∃ m, (set_model cfg qnn g).1 = .ok (m, 32) ∧ finalOutDim m = some 10) ∧
    (cfg.dataset = "cifar100" →
      ∃ m, (set_model cfg qnn g).1 = .ok (m, 32) ∧ finalOutDim m = some 100) ∧
    (cfg.dataset = "imagenet" →
      ∃ m, (set_model cfg qnn g).1 = .ok (m, 224) ∧ finalOutDim m = some 1000) := by
  refine ⟨fun hd => ?_, fun hd => ?_, fun hd => ?_⟩
  · refine ⟨MobileNetV2_CIFAR (qcfgOf cfg) 10 cfg.width_mult, ?_, ?_⟩
    · have hnc : pyStrInt "10" = 10 := by decide
      simp [set_model, hd, hnc]
    · simp [MobileNetV2_CIFAR, finalOutDim]
  · refine ⟨MobileNetV2_CIFAR (qcfgOf cfg) 100 cfg.width_mult, ?_, ?_⟩
    · have hnc : pyStrInt "100" = 100 := by decide
      simp [set_model, hd, hnc]
    · simp [MobileNetV2_CIFAR, finalOutDim]
  · refine ⟨MobileNetV2 (qcfgOf cfg) 1000 cfg.width_mult, ?_, ?_⟩
    · simp [set_model, hd]
    · simp [MobileNetV2, finalOutDim]

/-- C5 witness: the cifar10 configuration at width multiplier 1. -/
theorem set_model_recognized_witness :
    ∃ m, (set_model cfgSample "lsq" gInit).1 = .ok (m, 32) ∧ finalOutDim m = some 10 :=
  (set_model_recognized cfgSample "lsq" gInit (by decide)).1 rfl

/-- C8: in the constructed networks, every quantized convolution's weight
is initialized from a normal distribution with mean 0 and variance
`2 / (kernel_area * out_channels)` (the code passes standard deviation
`sqrt(2/n)` with `n = kernel_size[0] * kernel_size[1] * out_channels`) and
its bias, when present, is zeroed; every batch-norm layer gets weight 1 and
bias 0; every quantized linear layer's weight is drawn from a normal
distribution with mean 0 and standard deviation 0.01 (variance `(1/100)^2`)
and its bias is zeroed.  The rule is a pure function of the layer, so the
initialization is deterministic once the upstream sampler is seeded. -/
theorem weight_init_rules (qc : QCfg) (num_classes : Int) (w : ℚ) (net : MNet)
    (_hnet : net = MobileNetV2 qc num_classes w ∨ net = MobileNetV2_CIFAR qc num_classes w)
    (m : Layer) (_hm : m ∈ net.modules) :
    (∀ inp op k s p gp b nb sy, m = .quantConv2d inp op k s p gp b nb sy →
      initRule m = [("weight", .normalVar 0 (2 / ((k : ℚ) * k * op)))]
        ++ (if b then [("bias", .zeros)] else [])) ∧
    (∀ pl, m = .batchNorm2d pl →
      initRule m = [("weight", .ones), ("bias", .zeros)]) ∧
    (∀ i o nb sy b, m = .quantLinear i o nb sy b →
      initRule m = [("weight", .normalVar 0 ((1 / 100 : ℚ) ^ 2)), ("bias", .zeros)]) := by
  refine ⟨?_, ?_, ?_⟩
  · intro inp op k s p gp b nb sy hm
    subst hm
    rfl
  · intro pl hm
    subst hm
    rfl
  · intro i o nb sy b hm
    subst hm
    rfl

/-- C8 witness: the first convolution of the CIFAR network (3 input
channels, 32 output channels, 3x3 kernel, no bias) receives a weight drawn
from a normal distribution with variance `2 / (3*3*32)` and no bias
initialization. -/
theorem weight_init_rules_witness :
    initRule (Layer.quantConv2d 3 32 3 1 1 1 false 8 true)
      = [("weight", InitAction.normalVar 0 (2 / ((3 : ℚ) * 3 * 32)))]
        ++ (if false then [("bias", InitAction.zeros)] else []) :=
  (weight_init_rules qcSample 10 1 (MobileNetV2_CIFAR qcSample 10 1) (Or.inr rfl)
    (Layer.quantConv2d 3 32 3 1 1 1 false 8 true) (by decide)).1
    3 32 3 1 1 1 false 8 true rfl
